import Mathlib

/-!
Shallow embedding of the to-do list HTTP service (`src/index.js`).

The service keeps a single in-memory array `users`; every route is a
pipeline of guard middlewares followed by a handler.  JavaScript objects
are modelled as Lean structures, in-place mutation through the aliases the
guards attach to the request (`request.user`, `request.todo`) is modelled
by rewriting the corresponding position of the store, and `undefined`
body/header fields are modelled with `Option`.
-/

namespace TodoApp

/-- A JavaScript `Date` value as the handlers build it: either
`new Date(deadline)` applied to the (possibly absent) request-body field,
or `new Date()` at the current instant, modelled by an abstract tick. -/
inductive JsDate where
  | fromInput : Option String → JsDate
  | now : Nat → JsDate
deriving DecidableEq

/-- A todo object: `{ id, title, deadline, done, created_at }`. -/
structure Todo where
  id : String
  title : Option String
  deadline : JsDate
  done : Bool
  created_at : JsDate
deriving DecidableEq

/-- A user object: `{ id, name, username, pro, todos }`. -/
structure User where
  id : String
  name : Option String
  username : Option String
  pro : Bool
  todos : List Todo
deriving DecidableEq

/-- A JSON response body: the fixed error objects, a user, a todo, a todo
list, or the empty body of `response.send()`. -/
inductive Body where
  | error : String → Body
  | user : User → Body
  | todo : Todo → Body
  | todos : List Todo → Body
  | empty : Body
deriving DecidableEq

/-- An HTTP response: status code plus body.  `response.json(x)` with no
explicit status is status 200. -/
structure Response where
  status : Nat
  body : Body
deriving DecidableEq

/-- Outcome of a middleware: either it called `next()` after enriching the
request context with `α`, or it terminated the request with a response. -/
inductive MwResult (α : Type) where
  | next : α → MwResult α
  | respond : Response → MwResult α
deriving DecidableEq

/-- Hexadecimal digit, either case (the uuid regex carries the `i` flag). -/
def isHexDigit (c : Char) : Bool :=
  ('0' ≤ c && c ≤ '9') || ('a' ≤ c && c ≤ 'f') || ('A' ≤ c && c ≤ 'F')

/-- Character `c` at position `i` of a 36-character candidate UUID, per the
uuid package regex: dashes at 8/13/18/23, version digit `1`-`5` at 14,
variant `8/9/a/b` at 19, hex digits elsewhere. -/
def uuidCharOk (i : Nat) (c : Char) : Bool :=
  if i = 8 || i = 13 || i = 18 || i = 23 then c = '-'
  else if i = 14 then '1' ≤ c && c ≤ '5'
  else if i = 19 then c = '8' || c = '9' || c = 'a' || c = 'b' || c = 'A' || c = 'B'
  else isHexDigit c

/-- The `validate` function of the npm `uuid` package, called at
`validate(id, 4)` in `checksTodoExists`.  `validate` is unary — the extra
argument `4` is ignored — and tests the general UUID regex: any RFC-4122
UUID of version 1 through 5 (variant nibble `8/9/a/b`), case insensitive,
or the all-zero nil UUID. -/
def uuidValidate (s : String) : Bool :=
  s = "00000000-0000-0000-0000-000000000000" ||
    (s.length = 36 && s.data.enum.all fun p => uuidCharOk p.1 p.2)

/-- Modelled from the spec: a well-formed *version-4* UUID, i.e. the spec's
reading of the format check — like `uuidValidate` but with the version
digit fixed to `4` and without the nil UUID.  Used only to compare the
spec's wording against what the code actually accepts. -/
def isUuidV4 (s : String) : Bool :=
  s.length = 36 && s.data.enum.all fun p =>
    if p.1 = 14 then p.2 = '4' else uuidCharOk p.1 p.2

/-- `const [account] = users.filter((user) => user.username === username)`:
the first user whose `username` field strictly equals the header value
(`undefined === undefined` holds, hence plain `Option` equality). -/
def findAccount (users : List User) (username : Option String) : Option User :=
  (users.filter fun user => decide (user.username = username)).head?

/-- Middleware `checksExistsUserAccount`: looks the header `username` up in
the store; 404 `"User not found!"` when absent, otherwise attaches the
account and forwards. -/
def checksExistsUserAccount (users : List User) (username : Option String) :
    MwResult User :=
  match findAccount users username with
  | none => .respond ⟨404, .error "User not found!"⟩
  | some account => .next account

/-- Middleware `checksCreateTodosUserAvailability`: forwards when
`user.todos.length < 10 || user.pro`, else 403 `"User is not PRO"`. -/
def checksCreateTodosUserAvailability (user : User) : MwResult Unit :=
  if user.todos.length < 10 || user.pro then .next ()
  else .respond ⟨403, .error "User is not PRO"⟩

/-- Middleware `checksTodoExists`.  The source checks `validate(id, 4)`
first (the whole regex above: any version 1-5 UUID or nil), then whether
the account exists, then `account.todos.some((todo) => todo.id === id)`.
When matches exist the `for` loop assigns `request.todo` on every match, so
the last match wins; `todoIdExists` is true exactly when the filtered list
is nonempty, i.e. when its `getLast?` is `some`, which folds the source's
`some`-check plus loop into the single `getLast?` match below. -/
def checksTodoExists (users : List User) (username : Option String)
    (id : String) : MwResult (User × Todo) :=
  let account? := findAccount users username
  let validateId := uuidValidate id
  if !validateId then
    .respond ⟨400, .error "Id is not uuid"⟩
  else
    match account? with
    | some account =>
      match (account.todos.filter fun todo => decide (todo.id = id)).getLast? with
      | some todo => .next (account, todo)
      | none => .respond ⟨404, .error "Todo not found"⟩
    | none => .respond ⟨404, .error "User not found"⟩

/-- Middleware `findUserById`: first user whose `id` equals the path
parameter; 404 `"User not found!"` when absent. -/
def findUserById (users : List User) (id : String) : MwResult User :=
  match (users.filter fun account => decide (account.id = id)).head? with
  | none => .respond ⟨404, .error "User not found!"⟩
  | some user => .next user

/-- Rewrite the first element satisfying `p` with `f`; models in-place
mutation of the object a first-match lookup aliased. -/
def updateFirst {α : Type} (p : α → Bool) (f : α → α) : List α → List α
  | [] => []
  | x :: xs => if p x then f x :: xs else x :: updateFirst p f xs

/-- Rewrite the last element satisfying `p` with `f`; models in-place
mutation of the object `checksTodoExists`'s loop aliased (the last match). -/
def updateLast {α : Type} (p : α → Bool) (f : α → α) (l : List α) : List α :=
  (updateFirst p f l.reverse).reverse

/-- `PUT /todos/:id` body applied to a todo: the handler overwrites `title`
and `deadline` in place. -/
def putFields (title deadline : Option String) (t : Todo) : Todo :=
  {t with title := title, deadline := .fromInput deadline}

/-- `POST /users`: reject a duplicate username with 400, otherwise append a
fresh user (`pro: false`, `todos: []`) and return it with 201.  `freshId`
is the `uuidv4()` the handler draws. -/
def appPostUsers (users : List User) (name username : Option String)
    (freshId : String) : Response × List User :=
  if users.any fun user => decide (user.username = username) then
    (⟨400, .error "Username already exists"⟩, users)
  else
    let user : User := ⟨freshId, name, username, false, []⟩
    (⟨201, .user user⟩, users ++ [user])

/-- `GET /users/:id` (guard `findUserById`): return the attached user. -/
def appGetUserById (users : List User) (id : String) : Response × List User :=
  match findUserById users id with
  | .respond r => (r, users)
  | .next user => (⟨200, .user user⟩, users)

/-- `PATCH /users/:id/pro` (guard `findUserById`): 400 when already pro,
else set `pro` to true and return the updated user. -/
def appPatchUserPro (users : List User) (id : String) : Response × List User :=
  match findUserById users id with
  | .respond r => (r, users)
  | .next user =>
    if user.pro then
      (⟨400, .error "Pro plan is already activated."⟩, users)
    else
      (⟨200, .user {user with pro := true}⟩,
       updateFirst (fun u => decide (u.id = id))
         (fun u => {u with pro := true}) users)

/-- `GET /todos` (guard `checksExistsUserAccount`): return the attached
user's todo list. -/
def appGetTodos (users : List User) (username : Option String) :
    Response × List User :=
  match checksExistsUserAccount users username with
  | .respond r => (r, users)
  | .next user => (⟨200, .todos user.todos⟩, users)

/-- `POST /todos` (guards `checksExistsUserAccount` then
`checksCreateTodosUserAvailability`): build a todo with `done: false` and
`created_at: new Date()`, push it onto the attached user's list, return it
with 201. -/
def appPostTodos (users : List User) (username : Option String)
    (title deadline : Option String) (freshId : String) (now : Nat) :
    Response × List User :=
  match checksExistsUserAccount users username with
  | .respond r => (r, users)
  | .next user =>
    match checksCreateTodosUserAvailability user with
    | .respond r => (r, users)
    | .next _ =>
      let newTodo : Todo := ⟨freshId, title, .fromInput deadline, false, .now now⟩
      (⟨201, .todo newTodo⟩,
       updateFirst (fun u => decide (u.username = username))
         (fun u => {u with todos := u.todos ++ [newTodo]}) users)

/-- `PUT /todos/:id` (guard `checksTodoExists`): overwrite the attached
todo's `title` and `deadline` in place and return the mutated todo. -/
def appPutTodo (users : List User) (username : Option String) (id : String)
    (title deadline : Option String) : Response × List User :=
  match checksTodoExists users username id with
  | .respond r => (r, users)
  | .next (_, todo) =>
    (⟨200, .todo (putFields title deadline todo)⟩,
     updateFirst (fun u => decide (u.username = username))
       (fun u => {u with todos := (updateLast (fun t => decide (t.id = id)) (putFields title deadline) u.todos)})
       users)

/-- `PATCH /todos/:id/done` (guard `checksTodoExists`): set `done` on the
attached todo and return it. -/
def appPatchTodoDone (users : List User) (username : Option String)
    (id : String) : Response × List User :=
  match checksTodoExists users username id with
  | .respond r => (r, users)
  | .next (_, todo) =>
    (⟨200, .todo {todo with done := true}⟩,
     updateFirst (fun u => decide (u.username = username))
       (fun u => {u with todos := (updateLast (fun t => decide (t.id = id)) (fun t => {t with done := true}) u.todos)})
       users)

/-- `DELETE /todos/:id` (guards `checksExistsUserAccount` then
`checksTodoExists`): `user.todos.indexOf(todo)` finds the position of the
first element equal to the attached todo (`-1` guarded by the defensive
404), and `splice(todoIndex, 1)` removes that single position, i.e. an
`eraseP` of the first occurrence; on success 204 with empty body. -/
def appDeleteTodo (users : List User) (username : Option String)
    (id : String) : Response × List User :=
  match checksExistsUserAccount users username with
  | .respond r => (r, users)
  | .next _ =>
    match checksTodoExists users username id with
    | .respond r => (r, users)
    | .next (user, todo) =>
      if todo ∈ user.todos then
        (⟨204, .empty⟩,
         updateFirst (fun u => decide (u.username = username))
           (fun u => {u with todos := (u.todos.eraseP fun t => decide (t = todo))})
           users)
      else (⟨404, .error "Todo not found"⟩, users)

/-- One request to any of the eight routes, with the external inputs the
handler consumes (fresh uuid draws, the clock) made explicit. -/
inductive Req where
  | postUsers (name username : Option String) (freshId : String)
  | getUser (id : String)
  | patchPro (id : String)
  | getTodos (username : Option String)
  | postTodos (username : Option String) (title deadline : Option String)
      (freshId : String) (now : Nat)
  | putTodo (username : Option String) (id : String)
      (title deadline : Option String)
  | patchDone (username : Option String) (id : String)
  | deleteTodo (username : Option String) (id : String)

/-- Dispatch one request against the store. -/
def step (users : List User) : Req → Response × List User
  | .postUsers name username freshId => appPostUsers users name username freshId
  | .getUser id => appGetUserById users id
  | .patchPro id => appPatchUserPro users id
  | .getTodos username => appGetTodos users username
  | .postTodos username title deadline freshId now =>
      appPostTodos users username title deadline freshId now
  | .putTodo username id title deadline =>
      appPutTodo users username id title deadline
  | .patchDone username id => appPatchTodoDone users username id
  | .deleteTodo username id => appDeleteTodo users username id

/-- Run a sequence of requests, threading the store. -/
def run (users : List User) : List Req → List User
  | [] => users
  | r :: rs => run (step users r).2 rs

example : uuidValidate "aaaaaaaa-aaaa-4aaa-8aaa-aaaaaaaaaaaa" = true := by decide

example : uuidValidate "11111111-1111-1111-8111-111111111111" = true := by decide

example : isUuidV4 "11111111-1111-1111-8111-111111111111" = false := by decide

example : uuidValidate "not-a-uuid" = false := by decide

/-- A first-match lookup (`head?` of a `filter`) splits the list at the hit:
everything before it fails the predicate, and `updateFirst` rewrites exactly
that position. -/
theorem head_filter_decomp {α : Type} {p : α → Bool} (f : α → α) :
    ∀ {l : List α} {x : α}, (l.filter p).head? = some x →
    ∃ l1 l2, l = l1 ++ x :: l2 ∧ (∀ y ∈ l1, p y = false) ∧ p x = true ∧
      updateFirst p f l = l1 ++ f x :: l2 := by
  intro l
  induction l with
  | nil => intro x h; simp at h
  | cons a t ih =>
    intro x h
    by_cases hp : p a = true
    · rw [List.filter_cons_of_pos hp, List.head?_cons, Option.some_inj] at h
      subst h
      exact ⟨[], t, rfl, by simp, hp, by simp [updateFirst, hp]⟩
    · rw [List.filter_cons_of_neg hp] at h
      obtain ⟨l1, l2, hl, hfail, hpx, hupd⟩ := ih h
      refine ⟨a :: l1, l2, by rw [hl]; rfl, ?_, hpx, ?_⟩
      · intro y hy
        rcases List.mem_cons.mp hy with rfl | hy
        · simpa using hp
        · exact hfail y hy
      · simp only [updateFirst, if_neg hp, hupd]
        rfl

/-- Converse direction: if a prefix fails the predicate and `x` passes it,
the first-match lookup on `l1 ++ x :: l2` returns `x`. -/
theorem head_filter_append {α : Type} {p : α → Bool} {x : α} :
    ∀ {l1 : List α} (l2 : List α), (∀ y ∈ l1, p y = false) → p x = true →
    ((l1 ++ x :: l2).filter p).head? = some x := by
  intro l1
  induction l1 with
  | nil => intro l2 _ hpx; simp [List.filter_cons_of_pos hpx]
  | cons a t ih =>
    intro l2 hfail hpx
    have ha : p a = false := hfail a (List.mem_cons_self a t)
    rw [List.cons_append, List.filter_cons_of_neg (by simp [ha])]
    exact ih l2 (fun y hy => hfail y (List.mem_cons_of_mem a hy)) hpx

/-- A last-match lookup (`getLast?` of a `filter`) splits the list at the
hit: everything after it fails the predicate, and `updateLast` rewrites
exactly that position. -/
theorem getLast_filter_decomp {α : Type} {p : α → Bool} (f : α → α)
    {l : List α} {x : α} (h : (l.filter p).getLast? = some x) :
    ∃ l1 l2, l = l1 ++ x :: l2 ∧ (∀ y ∈ l2, p y = false) ∧ p x = true ∧
      updateLast p f l = l1 ++ f x :: l2 := by
  have h' : (l.reverse.filter p).head? = some x := by
    rw [List.filter_reverse, List.head?_reverse]; exact h
  obtain ⟨r1, r2, hl, hfail, hpx, hupd⟩ := head_filter_decomp f h'
  refine ⟨r2.reverse, r1.reverse, ?_, ?_, hpx, ?_⟩
  · have h2 := congrArg List.reverse hl
    simpa using h2
  · intro y hy
    exact hfail y (List.mem_reverse.mp hy)
  · unfold updateLast
    rw [hupd]
    simp

/-- `eraseP` on a list whose prefix fails the predicate removes exactly the
first passing element. -/
theorem eraseP_prefix_fail {α : Type} {p : α → Bool} {x : α}
    (hx : p x = true) :
    ∀ (l1 l2 : List α), (∀ y ∈ l1, p y = false) →
      (l1 ++ x :: l2).eraseP p = l1 ++ l2 := by
  intro l1
  induction l1 with
  | nil => intro l2 _; simp [List.eraseP_cons_of_pos hx]
  | cons a t ih =>
    intro l2 hfail
    have ha : p a = false := hfail a (List.mem_cons_self a t)
    rw [List.cons_append, List.eraseP_cons_of_neg (by simp [ha]),
      ih l2 (fun y hy => hfail y (List.mem_cons_of_mem a hy)), List.cons_append]

/-- Inversion of a successful `checksTodoExists`: the id passed the uuid
check, the account is the first username match, and the attached todo is
the last id match in that account's list. -/
theorem checksTodoExists_next_inv {users : List User} {username : Option String}
    {id : String} {user : User} {todo : Todo}
    (h : checksTodoExists users username id = MwResult.next (user, todo)) :
    uuidValidate id = true ∧ findAccount users username = some user ∧
      (user.todos.filter fun t => decide (t.id = id)).getLast? = some todo := by
  by_cases hv : uuidValidate id = true
  · rcases hacc : findAccount users username with _ | account
    · exfalso; simp [checksTodoExists, hv, hacc] at h
    · rcases hlast : (account.todos.filter fun t => decide (t.id = id)).getLast? with _ | t
      · exfalso; simp [checksTodoExists, hv, hacc, hlast] at h
      · have hat : account = user ∧ t = todo := by
          simpa [checksTodoExists, hv, hacc, hlast] using h
        obtain ⟨rfl, rfl⟩ := hat
        refine ⟨hv, ?_, ?_⟩ <;> simp [hacc, hlast]
  · exfalso
    have hv' : uuidValidate id = false := by simpa using hv
    simp [checksTodoExists, hv'] at h

/-- Inversion of a successful `findUserById`. -/
theorem findUserById_next_inv {users : List User} {id : String} {user : User}
    (h : findUserById users id = MwResult.next user) :
    (users.filter fun account => decide (account.id = id)).head? = some user := by
  rcases hh : (users.filter fun account => decide (account.id = id)).head? with _ | u
  · exfalso; simp [findUserById, hh] at h
  · have hu : u = user := by simpa [findUserById, hh] using h
    rw [← hu]
    exact hh

/-- `updateFirst` with a username-preserving rewrite leaves the stored
username sequence unchanged. -/
theorem map_username_updateFirst (p : User → Bool) (f : User → User)
    (hf : ∀ u, (f u).username = u.username) :
    ∀ l : List User, (updateFirst p f l).map User.username = l.map User.username := by
  intro l
  induction l with
  | nil => rfl
  | cons a t ih =>
    by_cases hp : p a = true
    · simp [updateFirst, hp, hf]
    · simp [updateFirst, hp, ih]

/-- `GET /users/:id` never mutates the store. -/
theorem snd_appGetUserById (users : List User) (id : String) :
    (appGetUserById users id).2 = users := by
  unfold appGetUserById
  split <;> rfl

/-- `GET /todos` never mutates the store. -/
theorem snd_appGetTodos (users : List User) (username : Option String) :
    (appGetTodos users username).2 = users := by
  unfold appGetTodos
  split <;> rfl

/-- `PATCH /users/:id/pro` never changes the stored usernames. -/
theorem usernames_appPatchUserPro (users : List User) (id : String) :
    (appPatchUserPro users id).2.map User.username = users.map User.username := by
  unfold appPatchUserPro
  split
  · rfl
  · split
    · rfl
    · apply map_username_updateFirst
      intro u
      rfl

/-- `POST /todos` never changes the stored usernames. -/
theorem usernames_appPostTodos (users : List User) (username : Option String)
    (title deadline : Option String) (freshId : String) (now : Nat) :
    (appPostTodos users username title deadline freshId now).2.map User.username =
      users.map User.username := by
  unfold appPostTodos
  split
  · rfl
  · split
    · rfl
    · apply map_username_updateFirst
      intro u
      rfl

/-- `PUT /todos/:id` never changes the stored usernames. -/
theorem usernames_appPutTodo (users : List User) (username : Option String)
    (id : String) (title deadline : Option String) :
    (appPutTodo users username id title deadline).2.map User.username =
      users.map User.username := by
  unfold appPutTodo
  split
  · rfl
  · apply map_username_updateFirst
    intro u
    rfl

/-- `PATCH /todos/:id/done` never changes the stored usernames. -/
theorem usernames_appPatchTodoDone (users : List User)
    (username : Option String) (id : String) :
    (appPatchTodoDone users username id).2.map User.username =
      users.map User.username := by
  unfold appPatchTodoDone
  split
  · rfl
  · apply map_username_updateFirst
    intro u
    rfl

/-- `DELETE /todos/:id` never changes the stored usernames. -/
theorem usernames_appDeleteTodo (users : List User) (username : Option String)
    (id : String) :
    (appDeleteTodo users username id).2.map User.username =
      users.map User.username := by
  unfold appDeleteTodo
  split
  · rfl
  · split
    · rfl
    · split
      · apply map_username_updateFirst
        intro u
        rfl
      · rfl

/-- Each dispatched request either leaves the stored username sequence
unchanged or appends one username that was not present before. -/
theorem usernames_step (users : List User) (r : Req) :
    (step users r).2.map User.username = users.map User.username ∨
    ∃ un, un ∉ users.map User.username ∧
      (step users r).2.map User.username = users.map User.username ++ [un] := by
  cases r with
  | postUsers name username freshId =>
    by_cases h : (users.any fun user => decide (user.username = username)) = true
    · left
      simp [step, appPostUsers, h]
    · right
      refine ⟨username, ?_, ?_⟩
      · intro hmem
        apply h
        simp only [List.mem_map] at hmem
        obtain ⟨u, hu, hun⟩ := hmem
        exact List.any_eq_true.mpr ⟨u, hu, by simp [hun]⟩
      · have h' : (users.any fun user => decide (user.username = username)) = false := by
          simpa using h
        simp [step, appPostUsers, h']
  | getUser id => left; simp [step, snd_appGetUserById]
  | patchPro id => left; simp [step, usernames_appPatchUserPro]
  | getTodos username => left; simp [step, snd_appGetTodos]
  | postTodos username title deadline freshId now =>
    left; simp [step, usernames_appPostTodos]
  | putTodo username id title deadline => left; simp [step, usernames_appPutTodo]
  | patchDone username id => left; simp [step, usernames_appPatchTodoDone]
  | deleteTodo username id => left; simp [step, usernames_appDeleteTodo]

/-- Running requests preserves distinctness of the stored usernames. -/
theorem run_usernames_nodup :
    ∀ (rs : List Req) (users : List User),
    (users.map User.username).Nodup → ((run users rs).map User.username).Nodup := by
  intro rs
  induction rs with
  | nil => intro users h; exact h
  | cons r rs ih =>
    intro users h
    rw [run]
    apply ih
    rcases usernames_step users r with heq | ⟨un, hnm, heq⟩
    · rw [heq]; exact h
    · rw [heq]
      refine List.Nodup.append h (List.nodup_singleton un) ?_
      intro x hx hx2
      rw [List.mem_singleton] at hx2
      subst hx2
      exact hnm hx

/-- Running requests never removes a username from the store. -/
theorem run_username_mem :
    ∀ (rs : List Req) (users : List User) {un : Option String},
    un ∈ users.map User.username → un ∈ (run users rs).map User.username := by
  intro rs
  induction rs with
  | nil => intro users un h; exact h
  | cons r rs ih =>
    intro users un h
    rw [run]
    apply ih
    rcases usernames_step users r with heq | ⟨un2, _, heq⟩
    · rw [heq]; exact h
    · rw [heq]
      exact List.mem_append_left _ h

/-- Claim C1 counterexample: `11111111-1111-1111-8111-111111111111` is a
well-formed UUID of version 1, not version 4, yet on an empty store the
guard does not answer 400 `"Id is not uuid"` for it (it proceeds to the
user lookup and answers 404), refuting the claim that every id that is not
a valid version-4 UUID is rejected with 400. -/
theorem todoExistsRejectsOnlyV4False :
    isUuidV4 "11111111-1111-1111-8111-111111111111" = false ∧
    checksTodoExists [] (some "a") "11111111-1111-1111-8111-111111111111" ≠
      MwResult.respond ⟨400, Body.error "Id is not uuid"⟩ := by
  decide

/-- Claim C1 (amended): the guard answers 400 `"Id is not uuid"` exactly
when the id fails the uuid library's `validate` — which accepts any
RFC-4122 UUID of version 1 through 5 and the nil UUID, the version
argument `4` at the call site being ignored — independently of whether a
matching user or todo exists; conversely every rejected id fails that
validation (so a well-formed non-version-4 UUID is accepted by the format
check, not rejected). -/
theorem todoExistsBadRequestIffNotUuid (users : List User)
    (username : Option String) (id : String) :
    checksTodoExists users username id =
        MwResult.respond ⟨400, Body.error "Id is not uuid"⟩ ↔
      uuidValidate id = false := by
  constructor
  · intro h
    by_contra hvne
    have hv : uuidValidate id = true := by simpa using hvne
    rcases hacc : findAccount users username with _ | account
    · simp [checksTodoExists, hv, hacc] at h
    · rcases hlast : (account.todos.filter fun t => decide (t.id = id)).getLast? with _ | t
      · simp [checksTodoExists, hv, hacc, hlast] at h
      · simp [checksTodoExists, hv, hacc, hlast] at h
  · intro h
    simp [checksTodoExists, h]

/-- Claim C2: `checksTodoExists` evaluates its checks in priority order — a
failing uuid validation answers 400 `"Id is not uuid"` regardless of the
store; with a passing id a missing user answers 404 `"User not found"`;
with an existing user a todo id absent from that user's list answers 404
`"Todo not found"`; and when all three pass the guard forwards with the
found user and (last-matching) todo attached. -/
theorem todoExistsCheckOrder (users : List User) (username : Option String)
    (id : String) :
    (uuidValidate id = false →
      checksTodoExists users username id =
        MwResult.respond ⟨400, Body.error "Id is not uuid"⟩) ∧
    (uuidValidate id = true → findAccount users username = none →
      checksTodoExists users username id =
        MwResult.respond ⟨404, Body.error "User not found"⟩) ∧
    (∀ account, uuidValidate id = true →
      findAccount users username = some account →
      (∀ t ∈ account.todos, t.id ≠ id) →
      checksTodoExists users username id =
        MwResult.respond ⟨404, Body.error "Todo not found"⟩) ∧
    (∀ account todo, uuidValidate id = true →
      findAccount users username = some account →
      (account.todos.filter fun t => decide (t.id = id)).getLast? = some todo →
      checksTodoExists users username id = MwResult.next (account, todo)) := by
  refine ⟨?_, ?_, ?_, ?_⟩
  · intro h
    simp [checksTodoExists, h]
  · intro hv hacc
    simp [checksTodoExists, hv, hacc]
  · intro account hv hacc hnone
    have hfil : account.todos.filter (fun t => decide (t.id = id)) = [] :=
      List.filter_eq_nil_iff.mpr (fun t ht => by simp [hnone t ht])
    simp [checksTodoExists, hv, hacc, hfil]
  · intro account todo hv hacc hlast
    simp [checksTodoExists, hv, hacc, hlast]

/-- Witness for C2: four concrete requests, one per branch of the guard. -/
theorem todoExistsCheckOrderWitness :
    checksTodoExists [] (some "a") "x" =
      MwResult.respond ⟨400, Body.error "Id is not uuid"⟩ ∧
    checksTodoExists [] (some "a") "aaaaaaaa-aaaa-4aaa-8aaa-aaaaaaaaaaaa" =
      MwResult.respond ⟨404, Body.error "User not found"⟩ ∧
    checksTodoExists [⟨"u1", none, some "a", false, []⟩] (some "a")
        "aaaaaaaa-aaaa-4aaa-8aaa-aaaaaaaaaaaa" =
      MwResult.respond ⟨404, Body.error "Todo not found"⟩ ∧
    checksTodoExists
        [⟨"u1", none, some "a", false,
          [⟨"aaaaaaaa-aaaa-4aaa-8aaa-aaaaaaaaaaaa", some "t", JsDate.fromInput none,
            false, JsDate.now 0⟩]⟩]
        (some "a") "aaaaaaaa-aaaa-4aaa-8aaa-aaaaaaaaaaaa" =
      MwResult.next
        (⟨"u1", none, some "a", false,
          [⟨"aaaaaaaa-aaaa-4aaa-8aaa-aaaaaaaaaaaa", some "t", JsDate.fromInput none,
            false, JsDate.now 0⟩]⟩,
         ⟨"aaaaaaaa-aaaa-4aaa-8aaa-aaaaaaaaaaaa", some "t", JsDate.fromInput none,
           false, JsDate.now 0⟩) :=
  ⟨(todoExistsCheckOrder [] (some "a") "x").1 (by decide),
   (todoExistsCheckOrder [] (some "a") "aaaaaaaa-aaaa-4aaa-8aaa-aaaaaaaaaaaa").2.1
     (by decide) (by decide),
   (todoExistsCheckOrder [⟨"u1", none, some "a", false, []⟩] (some "a")
       "aaaaaaaa-aaaa-4aaa-8aaa-aaaaaaaaaaaa").2.2.1
     ⟨"u1", none, some "a", false, []⟩ (by decide) (by decide) (by decide),
   (todoExistsCheckOrder
       [⟨"u1", none, some "a", false,
         [⟨"aaaaaaaa-aaaa-4aaa-8aaa-aaaaaaaaaaaa", some "t", JsDate.fromInput none,
           false, JsDate.now 0⟩]⟩]
       (some "a") "aaaaaaaa-aaaa-4aaa-8aaa-aaaaaaaaaaaa").2.2.2
     ⟨"u1", none, some "a", false,
       [⟨"aaaaaaaa-aaaa-4aaa-8aaa-aaaaaaaaaaaa", some "t", JsDate.fromInput none,
         false, JsDate.now 0⟩]⟩
     ⟨"aaaaaaaa-aaaa-4aaa-8aaa-aaaaaaaaaaaa", some "t", JsDate.fromInput none,
       false, JsDate.now 0⟩ (by decide) (by decide) (by decide)⟩

/-- Claim C4: creating a user with an already-taken username fails with 400
`"Username already exists"` whatever the `name` field is and leaves the
store unchanged; with a fresh username the new user is appended and
returned with 201, carrying `pro = false` and an empty todo list. -/
theorem postUsersUniqueOrCreate (users : List User)
    (name username : Option String) (freshId : String) :
    ((∃ u ∈ users, u.username = username) →
      appPostUsers users name username freshId =
        (⟨400, Body.error "Username already exists"⟩, users)) ∧
    ((∀ u ∈ users, u.username ≠ username) →
      appPostUsers users name username freshId =
        (⟨201, Body.user ⟨freshId, name, username, false, []⟩⟩,
         users ++ [⟨freshId, name, username, false, []⟩])) := by
  constructor
  · intro hex
    obtain ⟨u, hu, hun⟩ := hex
    have hany : (users.any fun user => decide (user.username = username)) = true :=
      List.any_eq_true.mpr ⟨u, hu, by simp [hun]⟩
    simp [appPostUsers, hany]
  · intro hall
    have hany : (users.any fun user => decide (user.username = username)) = false := by
      rw [Bool.eq_false_iff]
      intro hc
      obtain ⟨u, hu, hun⟩ := List.any_eq_true.mp hc
      exact hall u hu (by simpa using hun)
    simp [appPostUsers, hany]

/-- Witness for C4: a duplicate creation bounces with the store intact, and
a fresh creation appends the returned `pro = false`, empty-list user. -/
theorem postUsersUniqueOrCreateWitness :
    ((∃ u ∈ [(⟨"u1", some "Ann", some "a", false, []⟩ : User)],
        u.username = some "a") ∧
      appPostUsers [⟨"u1", some "Ann", some "a", false, []⟩]
          (some "Bob") (some "a") "u2" =
        (⟨400, Body.error "Username already exists"⟩,
         [⟨"u1", some "Ann", some "a", false, []⟩])) ∧
    ((∀ u ∈ [(⟨"u1", some "Ann", some "a", false, []⟩ : User)],
        u.username ≠ some "b") ∧
      appPostUsers [⟨"u1", some "Ann", some "a", false, []⟩]
          (some "Bob") (some "b") "u2" =
        (⟨201, Body.user ⟨"u2", some "Bob", some "b", false, []⟩⟩,
         [⟨"u1", some "Ann", some "a", false, []⟩,
          ⟨"u2", some "Bob", some "b", false, []⟩])) :=
  ⟨⟨by decide,
    (postUsersUniqueOrCreate [⟨"u1", some "Ann", some "a", false, []⟩]
        (some "Bob") (some "a") "u2").1 (by decide)⟩,
   ⟨by decide,
    (postUsersUniqueOrCreate [⟨"u1", some "Ann", some "a", false, []⟩]
        (some "Bob") (some "b") "u2").2 (by decide)⟩⟩

/-- Claim C7: starting from the empty store, after any sequence of requests
to the eight routes no two stored users share a username — only user
creation inserts, and it rejects duplicates first; nothing else rewrites a
username. -/
theorem usernameUniquenessInvariant (rs : List Req) :
    ((run [] rs).map User.username).Nodup :=
  run_usernames_nodup rs [] (by simp)

/-- Claim C10: user creation validates nothing — a request body with no
`username` field compares the absent value, so on the empty store the first
such request creates (201) a user whose username is the absent value, and
any later username-less request, whatever happened in between, is rejected
400 `"Username already exists"` with the store unchanged. -/
theorem postUsersNoValidation (name name2 : Option String)
    (freshId freshId2 : String) (rs : List Req) :
    appPostUsers [] name none freshId =
      (⟨201, Body.user ⟨freshId, name, none, false, []⟩⟩,
       [⟨freshId, name, none, false, []⟩]) ∧
    appPostUsers (run [⟨freshId, name, none, false, []⟩] rs) name2 none freshId2 =
      (⟨400, Body.error "Username already exists"⟩,
       run [⟨freshId, name, none, false, []⟩] rs) := by
  constructor
  · simp [appPostUsers]
  · have hmem : (none : Option String) ∈
        (run [(⟨freshId, name, none, false, []⟩ : User)] rs).map User.username :=
      run_username_mem rs _ (by simp)
    have hany : ((run [(⟨freshId, name, none, false, []⟩ : User)] rs).any
        fun user => decide (user.username = (none : Option String))) = true := by
      rw [List.any_eq_true]
      simp only [List.mem_map] at hmem
      obtain ⟨u, hu, hun⟩ := hmem
      exact ⟨u, hu, by simp [hun]⟩
    simp [appPostUsers, hany]

/-- Claim C3: for a `POST /todos` request authenticated as an existing
user, a non-pro user below 10 todos gets a 201 creation, a non-pro user at
or above 10 todos is rejected 403 `"User is not PRO"` with the store
unchanged, and a pro user gets a 201 creation regardless of count. -/
theorem postTodosQuota (users : List User) (username : Option String)
    (title deadline : Option String) (freshId : String) (now : Nat)
    (user : User) (hacc : findAccount users username = some user) :
    (user.pro = false → user.todos.length < 10 →
      (appPostTodos users username title deadline freshId now).1 =
        ⟨201, Body.todo ⟨freshId, title, JsDate.fromInput deadline, false,
          JsDate.now now⟩⟩) ∧
    (user.pro = false → 10 ≤ user.todos.length →
      appPostTodos users username title deadline freshId now =
        (⟨403, Body.error "User is not PRO"⟩, users)) ∧
    (user.pro = true →
      (appPostTodos users username title deadline freshId now).1 =
        ⟨201, Body.todo ⟨freshId, title, JsDate.fromInput deadline, false,
          JsDate.now now⟩⟩) := by
  refine ⟨?_, ?_, ?_⟩
  · intro _ hlen
    simp [appPostTodos, checksExistsUserAccount, hacc,
      checksCreateTodosUserAvailability, hlen]
  · intro hpro hlen
    have h1 : ¬ user.todos.length < 10 := by omega
    simp [appPostTodos, checksExistsUserAccount, hacc,
      checksCreateTodosUserAvailability, h1, hpro]
  · intro hpro
    simp [appPostTodos, checksExistsUserAccount, hacc,
      checksCreateTodosUserAvailability, hpro]

/-- Witness for C3: a non-pro user with one todo creates (201), a non-pro
user with ten todos is rejected 403 leaving the store as it was, and a pro
user with ten todos creates (201). -/
theorem postTodosQuotaWitness :
    (appPostTodos [⟨"u1", none, some "a", false,
        [⟨"t0", none, JsDate.fromInput none, false, JsDate.now 0⟩]⟩]
      (some "a") (some "x") none "t1" 5).1 =
      ⟨201, Body.todo ⟨"t1", some "x", JsDate.fromInput none, false,
        JsDate.now 5⟩⟩ ∧
    appPostTodos [⟨"u2", none, some "b", false,
        [⟨"t0", none, JsDate.fromInput none, false, JsDate.now 0⟩,
         ⟨"t1", none, JsDate.fromInput none, false, JsDate.now 0⟩,
         ⟨"t2", none, JsDate.fromInput none, false, JsDate.now 0⟩,
         ⟨"t3", none, JsDate.fromInput none, false, JsDate.now 0⟩,
         ⟨"t4", none, JsDate.fromInput none, false, JsDate.now 0⟩,
         ⟨"t5", none, JsDate.fromInput none, false, JsDate.now 0⟩,
         ⟨"t6", none, JsDate.fromInput none, false, JsDate.now 0⟩,
         ⟨"t7", none, JsDate.fromInput none, false, JsDate.now 0⟩,
         ⟨"t8", none, JsDate.fromInput none, false, JsDate.now 0⟩,
         ⟨"t9", none, JsDate.fromInput none, false, JsDate.now 0⟩]⟩]
      (some "b") (some "x") none "ta" 5 =
      (⟨403, Body.error "User is not PRO"⟩,
       [⟨"u2", none, some "b", false,
        [⟨"t0", none, JsDate.fromInput none, false, JsDate.now 0⟩,
         ⟨"t1", none, JsDate.fromInput none, false, JsDate.now 0⟩,
         ⟨"t2", none, JsDate.fromInput none, false, JsDate.now 0⟩,
         ⟨"t3", none, JsDate.fromInput none, false, JsDate.now 0⟩,
         ⟨"t4", none, JsDate.fromInput none, false, JsDate.now 0⟩,
         ⟨"t5", none, JsDate.fromInput none, false, JsDate.now 0⟩,
         ⟨"t6", none, JsDate.fromInput none, false, JsDate.now 0⟩,
         ⟨"t7", none, JsDate.fromInput none, false, JsDate.now 0⟩,
         ⟨"t8", none, JsDate.fromInput none, false, JsDate.now 0⟩,
         ⟨"t9", none, JsDate.fromInput none, false, JsDate.now 0⟩]⟩]) ∧
    (appPostTodos [⟨"u3", none, some "c", true,
        [⟨"t0", none, JsDate.fromInput none, false, JsDate.now 0⟩,
         ⟨"t1", none, JsDate.fromInput none, false, JsDate.now 0⟩,
         ⟨"t2", none, JsDate.fromInput none, false, JsDate.now 0⟩,
         ⟨"t3", none, JsDate.fromInput none, false, JsDate.now 0⟩,
         ⟨"t4", none, JsDate.fromInput none, false, JsDate.now 0⟩,
         ⟨"t5", none, JsDate.fromInput none, false, JsDate.now 0⟩,
         ⟨"t6", none, JsDate.fromInput none, false, JsDate.now 0⟩,
         ⟨"t7", none, JsDate.fromInput none, false, JsDate.now 0⟩,
         ⟨"t8", none, JsDate.fromInput none, false, JsDate.now 0⟩,
         ⟨"t9", none, JsDate.fromInput none, false, JsDate.now 0⟩]⟩]
      (some "c") (some "x") none "ta" 5).1 =
      ⟨201, Body.todo ⟨"ta", some "x", JsDate.fromInput none, false,
        JsDate.now 5⟩⟩ :=
  ⟨(postTodosQuota _ (some "a") (some "x") none "t1" 5
      ⟨"u1", none, some "a", false,
        [⟨"t0", none, JsDate.fromInput none, false, JsDate.now 0⟩]⟩
      (by decide)).1 (by decide) (by decide),
   (postTodosQuota _ (some "b") (some "x") none "ta" 5
      ⟨"u2", none, some "b", false,
        [⟨"t0", none, JsDate.fromInput none, false, JsDate.now 0⟩,
         ⟨"t1", none, JsDate.fromInput none, false, JsDate.now 0⟩,
         ⟨"t2", none, JsDate.fromInput none, false, JsDate.now 0⟩,
         ⟨"t3", none, JsDate.fromInput none, false, JsDate.now 0⟩,
         ⟨"t4", none, JsDate.fromInput none, false, JsDate.now 0⟩,
         ⟨"t5", none, JsDate.fromInput none, false, JsDate.now 0⟩,
         ⟨"t6", none, JsDate.fromInput none, false, JsDate.now 0⟩,
         ⟨"t7", none, JsDate.fromInput none, false, JsDate.now 0⟩,
         ⟨"t8", none, JsDate.fromInput none, false, JsDate.now 0⟩,
         ⟨"t9", none, JsDate.fromInput none, false, JsDate.now 0⟩]⟩
      (by decide)).2.1 (by decide) (by decide),
   (postTodosQuota _ (some "c") (some "x") none "ta" 5
      ⟨"u3", none, some "c", true,
        [⟨"t0", none, JsDate.fromInput none, false, JsDate.now 0⟩,
         ⟨"t1", none, JsDate.fromInput none, false, JsDate.now 0⟩,
         ⟨"t2", none, JsDate.fromInput none, false, JsDate.now 0⟩,
         ⟨"t3", none, JsDate.fromInput none, false, JsDate.now 0⟩,
         ⟨"t4", none, JsDate.fromInput none, false, JsDate.now 0⟩,
         ⟨"t5", none, JsDate.fromInput none, false, JsDate.now 0⟩,
         ⟨"t6", none, JsDate.fromInput none, false, JsDate.now 0⟩,
         ⟨"t7", none, JsDate.fromInput none, false, JsDate.now 0⟩,
         ⟨"t8", none, JsDate.fromInput none, false, JsDate.now 0⟩,
         ⟨"t9", none, JsDate.fromInput none, false, JsDate.now 0⟩]⟩
      (by decide)).2.2 (by decide)⟩

/-- Claim C5: for `PATCH /users/:id/pro` on an existing user, an
already-pro user is rejected 400 `"Pro plan is already activated."` with
the whole store unchanged; a non-pro user gets `pro` set to true, the
updated user returned with 200, and only that user's entry rewritten. -/
theorem patchProAlreadyActive (users : List User) (id : String) (user : User)
    (h : findUserById users id = MwResult.next user) :
    (user.pro = true →
      appPatchUserPro users id =
        (⟨400, Body.error "Pro plan is already activated."⟩, users)) ∧
    (user.pro = false →
      ∃ p1 p2, users = p1 ++ user :: p2 ∧
        appPatchUserPro users id =
          (⟨200, Body.user {user with pro := true}⟩,
           p1 ++ {user with pro := true} :: p2)) := by
  have hh := findUserById_next_inv h
  constructor
  · intro hpro
    simp [appPatchUserPro, findUserById, hh, hpro]
  · intro hpro
    obtain ⟨p1, p2, hl, _, _, hupd⟩ :=
      head_filter_decomp (fun u => {u with pro := true}) hh
    refine ⟨p1, p2, hl, ?_⟩
    simp [appPatchUserPro, findUserById, hh, hpro, hupd]

/-- Witness for C5: upgrading a pro user bounces with the store intact;
upgrading a non-pro user rewrites exactly that entry and returns it. -/
theorem patchProAlreadyActiveWitness :
    (appPatchUserPro [⟨"u1", none, some "a", true, []⟩] "u1" =
      (⟨400, Body.error "Pro plan is already activated."⟩,
       [⟨"u1", none, some "a", true, []⟩])) ∧
    (∃ p1 p2,
      [(⟨"u2", none, some "b", false, []⟩ : User)] = p1 ++
        (⟨"u2", none, some "b", false, []⟩ : User) :: p2 ∧
      appPatchUserPro [⟨"u2", none, some "b", false, []⟩] "u2" =
        (⟨200, Body.user ⟨"u2", none, some "b", true, []⟩⟩,
         p1 ++ (⟨"u2", none, some "b", true, []⟩ : User) :: p2)) :=
  ⟨(patchProAlreadyActive [⟨"u1", none, some "a", true, []⟩] "u1"
      ⟨"u1", none, some "a", true, []⟩ (by decide)).1 rfl,
   (patchProAlreadyActive [⟨"u2", none, some "b", false, []⟩] "u2"
      ⟨"u2", none, some "b", false, []⟩ (by decide)).2 rfl⟩

/-- Claim C6: a successful `DELETE /todos/:id` removes exactly the attached
todo from the owner's list — the rest keeps its content and order — answers
204 with empty body, and a subsequent `GET /todos` for that user returns
the remaining list, which no longer contains the deleted todo.  (The todo
ids within the owner's list are assumed distinct, the spec's stated
invariant for collision-resistant generated ids.) -/
theorem deleteTodoRemovesExactlyOne (users : List User)
    (username : Option String) (id : String) (user : User) (todo : Todo)
    (h : checksTodoExists users username id = MwResult.next (user, todo))
    (hids : (user.todos.map Todo.id).Nodup) :
    ∃ p1 p2 l1 l2,
      users = p1 ++ user :: p2 ∧
      user.todos = l1 ++ todo :: l2 ∧
      appDeleteTodo users username id =
        (⟨204, Body.empty⟩, p1 ++ {user with todos := l1 ++ l2} :: p2) ∧
      todo ∉ l1 ++ l2 ∧
      (appGetTodos (p1 ++ {user with todos := l1 ++ l2} :: p2) username).1 =
        ⟨200, Body.todos (l1 ++ l2)⟩ := by
  obtain ⟨hv, hacc, hlast⟩ := checksTodoExists_next_inv h
  have hacc' : (users.filter fun u => decide (u.username = username)).head? =
      some user := hacc
  obtain ⟨l1, l2, hodos, hfail2, hpx, -⟩ :=
    getLast_filter_decomp (fun t => t) hlast
  have hid : todo.id = id := of_decide_eq_true hpx
  have hnotmem : todo.id ∉ l1.map Todo.id ++ l2.map Todo.id := by
    have hnd := hids
    rw [hodos, List.map_append, List.map_cons, List.nodup_middle,
      List.nodup_cons] at hnd
    exact hnd.1
  have hne : ∀ y ∈ l1 ++ l2, y ≠ todo := by
    intro y hy heq
    subst heq
    exact hnotmem (by rw [← List.map_append]; exact List.mem_map_of_mem Todo.id hy)
  have herase : (l1 ++ todo :: l2).eraseP (fun t => decide (t = todo)) =
      l1 ++ l2 := by
    apply eraseP_prefix_fail (by simp)
    intro y hy
    exact decide_eq_false (hne y (List.mem_append_left l2 hy))
  obtain ⟨p1, p2, husers, hufail, hup, hupd⟩ :=
    head_filter_decomp
      (fun u => {u with todos := (u.todos.eraseP fun t => decide (t = todo))})
      hacc'
  have hmem : todo ∈ user.todos := by
    rw [hodos]; exact List.mem_append_right l1 (List.mem_cons_self todo l2)
  have hgua : checksExistsUserAccount users username = MwResult.next user := by
    simp [checksExistsUserAccount, hacc]
  refine ⟨p1, p2, l1, l2, husers, hodos, ?_, ?_, ?_⟩
  · have hrun : appDeleteTodo users username id =
        (⟨204, Body.empty⟩,
         updateFirst (fun u => decide (u.username = username))
           (fun u => {u with todos := (u.todos.eraseP fun t => decide (t = todo))})
           users) := by
      simp [appDeleteTodo, hgua, h, hmem]
    rw [hrun, hupd]
    rw [show ({user with todos := (user.todos.eraseP fun t => decide (t = todo))} : User) =
        {user with todos := l1 ++ l2} from by rw [hodos, herase]]
  · intro hc
    exact hne todo hc rfl
  · have hfind : findAccount (p1 ++ {user with todos := l1 ++ l2} :: p2) username =
        some {user with todos := l1 ++ l2} := by
      unfold findAccount
      exact head_filter_append p2 hufail hup
    simp [appGetTodos, checksExistsUserAccount, hfind]

/-- Witness for C6 on a one-user, one-todo store. -/
theorem deleteTodoRemovesExactlyOneWitness :
    checksTodoExists
        [⟨"u1", none, some "a", false,
          [⟨"aaaaaaaa-aaaa-4aaa-8aaa-aaaaaaaaaaaa", some "t", JsDate.fromInput none,
            false, JsDate.now 0⟩]⟩]
        (some "a") "aaaaaaaa-aaaa-4aaa-8aaa-aaaaaaaaaaaa" =
      MwResult.next
        (⟨"u1", none, some "a", false,
          [⟨"aaaaaaaa-aaaa-4aaa-8aaa-aaaaaaaaaaaa", some "t", JsDate.fromInput none,
            false, JsDate.now 0⟩]⟩,
         ⟨"aaaaaaaa-aaaa-4aaa-8aaa-aaaaaaaaaaaa", some "t", JsDate.fromInput none,
           false, JsDate.now 0⟩) ∧
    ((⟨"u1", none, some "a", false,
        [⟨"aaaaaaaa-aaaa-4aaa-8aaa-aaaaaaaaaaaa", some "t", JsDate.fromInput none,
          false, JsDate.now 0⟩]⟩ : User).todos.map Todo.id).Nodup ∧
    (∃ p1 p2 l1 l2,
      [(⟨"u1", none, some "a", false,
         [⟨"aaaaaaaa-aaaa-4aaa-8aaa-aaaaaaaaaaaa", some "t", JsDate.fromInput none,
           false, JsDate.now 0⟩]⟩ : User)] = p1 ++
        (⟨"u1", none, some "a", false,
          [⟨"aaaaaaaa-aaaa-4aaa-8aaa-aaaaaaaaaaaa", some "t", JsDate.fromInput none,
            false, JsDate.now 0⟩]⟩ : User) :: p2 ∧
      (⟨"u1", none, some "a", false,
        [⟨"aaaaaaaa-aaaa-4aaa-8aaa-aaaaaaaaaaaa", some "t", JsDate.fromInput none,
          false, JsDate.now 0⟩]⟩ : User).todos = l1 ++
        (⟨"aaaaaaaa-aaaa-4aaa-8aaa-aaaaaaaaaaaa", some "t", JsDate.fromInput none,
          false, JsDate.now 0⟩ : Todo) :: l2 ∧
      appDeleteTodo
          [⟨"u1", none, some "a", false,
            [⟨"aaaaaaaa-aaaa-4aaa-8aaa-aaaaaaaaaaaa", some "t", JsDate.fromInput none,
              false, JsDate.now 0⟩]⟩]
          (some "a") "aaaaaaaa-aaaa-4aaa-8aaa-aaaaaaaaaaaa" =
        (⟨204, Body.empty⟩,
         p1 ++ ({(⟨"u1", none, some "a", false,
           [⟨"aaaaaaaa-aaaa-4aaa-8aaa-aaaaaaaaaaaa", some "t", JsDate.fromInput none,
             false, JsDate.now 0⟩]⟩ : User) with todos := l1 ++ l2}) :: p2) ∧
      (⟨"aaaaaaaa-aaaa-4aaa-8aaa-aaaaaaaaaaaa", some "t", JsDate.fromInput none,
        false, JsDate.now 0⟩ : Todo) ∉ l1 ++ l2 ∧
      (appGetTodos
          (p1 ++ ({(⟨"u1", none, some "a", false,
            [⟨"aaaaaaaa-aaaa-4aaa-8aaa-aaaaaaaaaaaa", some "t", JsDate.fromInput none,
              false, JsDate.now 0⟩]⟩ : User) with todos := l1 ++ l2}) :: p2)
          (some "a")).1 =
        ⟨200, Body.todos (l1 ++ l2)⟩) :=
  ⟨by decide, by decide,
   deleteTodoRemovesExactlyOne
     [⟨"u1", none, some "a", false,
       [⟨"aaaaaaaa-aaaa-4aaa-8aaa-aaaaaaaaaaaa", some "t", JsDate.fromInput none,
         false, JsDate.now 0⟩]⟩]
     (some "a") "aaaaaaaa-aaaa-4aaa-8aaa-aaaaaaaaaaaa"
     ⟨"u1", none, some "a", false,
       [⟨"aaaaaaaa-aaaa-4aaa-8aaa-aaaaaaaaaaaa", some "t", JsDate.fromInput none,
         false, JsDate.now 0⟩]⟩
     ⟨"aaaaaaaa-aaaa-4aaa-8aaa-aaaaaaaaaaaa", some "t", JsDate.fromInput none,
       false, JsDate.now 0⟩
     (by decide) (by decide)⟩

/-- Claim C8: a successful `PUT /todos/:id` rewrites only the attached
todo's `title` and `deadline`; its `id`, `done` and `created_at` are
unchanged, every other todo of every user is unchanged, and the updated
todo is returned with 200. -/
theorem putTodoFrame (users : List User) (username : Option String)
    (id : String) (title deadline : Option String) (user : User) (todo : Todo)
    (h : checksTodoExists users username id = MwResult.next (user, todo)) :
    ∃ p1 p2 l1 l2,
      users = p1 ++ user :: p2 ∧
      user.todos = l1 ++ todo :: l2 ∧
      appPutTodo users username id title deadline =
        (⟨200, Body.todo (putFields title deadline todo)⟩,
         p1 ++ {user with todos := l1 ++ putFields title deadline todo :: l2} :: p2) ∧
      (putFields title deadline todo).id = todo.id ∧
      (putFields title deadline todo).done = todo.done ∧
      (putFields title deadline todo).created_at = todo.created_at := by
  obtain ⟨hv, hacc, hlast⟩ := checksTodoExists_next_inv h
  have hacc' : (users.filter fun u => decide (u.username = username)).head? =
      some user := hacc
  obtain ⟨l1, l2, hodos, hfail2, hpx, hupdL⟩ :=
    getLast_filter_decomp (putFields title deadline) hlast
  obtain ⟨p1, p2, husers, hufail, hup, hupdF⟩ :=
    head_filter_decomp
      (fun u => {u with todos :=
        (updateLast (fun t => decide (t.id = id)) (putFields title deadline) u.todos)})
      hacc'
  refine ⟨p1, p2, l1, l2, husers, hodos, ?_, rfl, rfl, rfl⟩
  have hrun : appPutTodo users username id title deadline =
      (⟨200, Body.todo (putFields title deadline todo)⟩,
       updateFirst (fun u => decide (u.username = username))
         (fun u => {u with todos :=
           (updateLast (fun t => decide (t.id = id)) (putFields title deadline) u.todos)})
         users) := by
    simp [appPutTodo, h]
  rw [hrun, hupdF, hupdL]

/-- Witness for C8 on a one-user, one-todo store. -/
theorem putTodoFrameWitness :
    checksTodoExists
        [⟨"u1", none, some "a", false,
          [⟨"aaaaaaaa-aaaa-4aaa-8aaa-aaaaaaaaaaaa", some "t", JsDate.fromInput none,
            false, JsDate.now 0⟩]⟩]
        (some "a") "aaaaaaaa-aaaa-4aaa-8aaa-aaaaaaaaaaaa" =
      MwResult.next
        (⟨"u1", none, some "a", false,
          [⟨"aaaaaaaa-aaaa-4aaa-8aaa-aaaaaaaaaaaa", some "t", JsDate.fromInput none,
            false, JsDate.now 0⟩]⟩,
         ⟨"aaaaaaaa-aaaa-4aaa-8aaa-aaaaaaaaaaaa", some "t", JsDate.fromInput none,
           false, JsDate.now 0⟩) ∧
    (∃ p1 p2 l1 l2,
      [(⟨"u1", none, some "a", false,
         [⟨"aaaaaaaa-aaaa-4aaa-8aaa-aaaaaaaaaaaa", some "t", JsDate.fromInput none,
           false, JsDate.now 0⟩]⟩ : User)] = p1 ++
        (⟨"u1", none, some "a", false,
          [⟨"aaaaaaaa-aaaa-4aaa-8aaa-aaaaaaaaaaaa", some "t", JsDate.fromInput none,
            false, JsDate.now 0⟩]⟩ : User) :: p2 ∧
      (⟨"u1", none, some "a", false,
        [⟨"aaaaaaaa-aaaa-4aaa-8aaa-aaaaaaaaaaaa", some "t", JsDate.fromInput none,
          false, JsDate.now 0⟩]⟩ : User).todos = l1 ++
        (⟨"aaaaaaaa-aaaa-4aaa-8aaa-aaaaaaaaaaaa", some "t", JsDate.fromInput none,
          false, JsDate.now 0⟩ : Todo) :: l2 ∧
      appPutTodo
          [⟨"u1", none, some "a", false,
            [⟨"aaaaaaaa-aaaa-4aaa-8aaa-aaaaaaaaaaaa", some "t", JsDate.fromInput none,
              false, JsDate.now 0⟩]⟩]
          (some "a") "aaaaaaaa-aaaa-4aaa-8aaa-aaaaaaaaaaaa" (some "s") (some "d") =
        (⟨200, Body.todo (putFields (some "s") (some "d")
            ⟨"aaaaaaaa-aaaa-4aaa-8aaa-aaaaaaaaaaaa", some "t", JsDate.fromInput none,
              false, JsDate.now 0⟩)⟩,
         p1 ++ ({(⟨"u1", none, some "a", false,
           [⟨"aaaaaaaa-aaaa-4aaa-8aaa-aaaaaaaaaaaa", some "t", JsDate.fromInput none,
             false, JsDate.now 0⟩]⟩ : User) with todos :=
            (l1 ++ putFields (some "s") (some "d") (⟨"aaaaaaaa-aaaa-4aaa-8aaa-aaaaaaaaaaaa", some "t", JsDate.fromInput none, false, JsDate.now 0⟩ : Todo) :: l2)}) :: p2) ∧
      (putFields (some "s") (some "d")
          (⟨"aaaaaaaa-aaaa-4aaa-8aaa-aaaaaaaaaaaa", some "t", JsDate.fromInput none,
            false, JsDate.now 0⟩ : Todo)).id =
        (⟨"aaaaaaaa-aaaa-4aaa-8aaa-aaaaaaaaaaaa", some "t", JsDate.fromInput none,
          false, JsDate.now 0⟩ : Todo).id ∧
      (putFields (some "s") (some "d")
          (⟨"aaaaaaaa-aaaa-4aaa-8aaa-aaaaaaaaaaaa", some "t", JsDate.fromInput none,
            false, JsDate.now 0⟩ : Todo)).done =
        (⟨"aaaaaaaa-aaaa-4aaa-8aaa-aaaaaaaaaaaa", some "t", JsDate.fromInput none,
          false, JsDate.now 0⟩ : Todo).done ∧
      (putFields (some "s") (some "d")
          (⟨"aaaaaaaa-aaaa-4aaa-8aaa-aaaaaaaaaaaa", some "t", JsDate.fromInput none,
            false, JsDate.now 0⟩ : Todo)).created_at =
        (⟨"aaaaaaaa-aaaa-4aaa-8aaa-aaaaaaaaaaaa", some "t", JsDate.fromInput none,
          false, JsDate.now 0⟩ : Todo).created_at) :=
  ⟨by decide,
   putTodoFrame
     [⟨"u1", none, some "a", false,
       [⟨"aaaaaaaa-aaaa-4aaa-8aaa-aaaaaaaaaaaa", some "t", JsDate.fromInput none,
         false, JsDate.now 0⟩]⟩]
     (some "a") "aaaaaaaa-aaaa-4aaa-8aaa-aaaaaaaaaaaa" (some "s") (some "d")
     ⟨"u1", none, some "a", false,
       [⟨"aaaaaaaa-aaaa-4aaa-8aaa-aaaaaaaaaaaa", some "t", JsDate.fromInput none,
         false, JsDate.now 0⟩]⟩
     ⟨"aaaaaaaa-aaaa-4aaa-8aaa-aaaaaaaaaaaa", some "t", JsDate.fromInput none,
       false, JsDate.now 0⟩
     (by decide)⟩

/-- Claim C9: the delete handler's defensive 404 branch is unreachable —
whenever `checksTodoExists` forwarded (which `checksExistsUserAccount`
passing precedes on this route), the attached todo is an element of the
attached user's list, so the membership lookup succeeds and the route
answers 204. -/
theorem deleteDefensiveBranchUnreachable (users : List User)
    (username : Option String) (id : String) (user : User) (todo : Todo)
    (h : checksTodoExists users username id = MwResult.next (user, todo)) :
    todo ∈ user.todos ∧
      (appDeleteTodo users username id).1 = ⟨204, Body.empty⟩ := by
  obtain ⟨hv, hacc, hlast⟩ := checksTodoExists_next_inv h
  obtain ⟨l1, l2, hodos, -, -, -⟩ := getLast_filter_decomp (fun t => t) hlast
  have hmem : todo ∈ user.todos := by
    rw [hodos]; exact List.mem_append_right l1 (List.mem_cons_self todo l2)
  have hgua : checksExistsUserAccount users username = MwResult.next user := by
    simp [checksExistsUserAccount, hacc]
  refine ⟨hmem, ?_⟩
  simp [appDeleteTodo, hgua, h, hmem]

/-- Witness for C9 on a one-user, one-todo store. -/
theorem deleteDefensiveBranchUnreachableWitness :
    (⟨"bbbbbbbb-bbbb-4bbb-9bbb-bbbbbbbbbbbb", some "t", JsDate.fromInput none,
      false, JsDate.now 0⟩ : Todo) ∈
      (⟨"u9", none, some "z", false,
        [⟨"bbbbbbbb-bbbb-4bbb-9bbb-bbbbbbbbbbbb", some "t", JsDate.fromInput none,
          false, JsDate.now 0⟩]⟩ : User).todos ∧
    (appDeleteTodo
        [⟨"u9", none, some "z", false,
          [⟨"bbbbbbbb-bbbb-4bbb-9bbb-bbbbbbbbbbbb", some "t", JsDate.fromInput none,
            false, JsDate.now 0⟩]⟩]
        (some "z") "bbbbbbbb-bbbb-4bbb-9bbb-bbbbbbbbbbbb").1 =
      ⟨204, Body.empty⟩ :=
  deleteDefensiveBranchUnreachable
    [⟨"u9", none, some "z", false,
      [⟨"bbbbbbbb-bbbb-4bbb-9bbb-bbbbbbbbbbbb", some "t", JsDate.fromInput none,
        false, JsDate.now 0⟩]⟩]
    (some "z") "bbbbbbbb-bbbb-4bbb-9bbb-bbbbbbbbbbbb"
    ⟨"u9", none, some "z", false,
      [⟨"bbbbbbbb-bbbb-4bbb-9bbb-bbbbbbbbbbbb", some "t", JsDate.fromInput none,
        false, JsDate.now 0⟩]⟩
    ⟨"bbbbbbbb-bbbb-4bbb-9bbb-bbbbbbbbbbbb", some "t", JsDate.fromInput none,
      false, JsDate.now 0⟩
    (by decide)

end TodoApp
